import Mathlib

/-!
# Verification of the cosmwasm-mcp-template tool server (`src/server.rs`)

A shallow embedding of the MCP tool operations of `CwMcp`:
`list_contract_deployments`, `list_query_entry_points`, `list_tx_entry_points`,
`build_query_msg`, `build_execute_msg`.

Modelling conventions:
* JSON text is modelled by a syntax tree `Json` of strings, arrays and objects
  (the only JSON forms this program's wire format uses: `Uint128` amounts and
  the cosmwasm `Binary` payload both serialize as JSON strings), together with
  a canonical renderer `Json.render` (compact output, serde_json escaping) and
  a genuine character-level parser `parseJson`.
* cosmwasm's `Binary` is modelled as the JSON text it wraps; the base64
  transport re-encoding applied by `serde` to `Binary` is an injective
  re-encoding elided here.
* A Rust panic (`.unwrap()` on a failed parse) is the `Outcome.panics` branch;
  a normal return of `Result<CallToolResult, Error>` is `Outcome.returns`.
* The fallible external functions `serde_json::to_string` and `to_json_binary`
  are parameters (`ser`, `enc`) of the `...With` forms of each operation; the
  unparameterized forms instantiate them with the total model serializer,
  which is what `serde_json` is on this value domain.
-/

/-! ## JSON value model -/

mutual

inductive Json where
| str (s : String)
| arr (elems : JsonList)
| obj (fields : JsonFields)

inductive JsonList where
| nil
| cons (hd : Json) (tl : JsonList)

inductive JsonFields where
| nil
| cons (key : String) (val : Json) (tl : JsonFields)

end

/- Node count of a JSON tree, used as a fuel bound for the parser. -/
mutual

def Json.nodes : Json → Nat
| .str _ => 1
| .arr es => es.nodes + 1
| .obj fs => fs.nodes + 1

def JsonList.nodes : JsonList → Nat
| .nil => 0
| .cons h t => h.nodes + t.nodes + 1

def JsonFields.nodes : JsonFields → Nat
| .nil => 0
| .cons _ v t => v.nodes + t.nodes + 1

end

/-- Lower-case hexadecimal digit, as `serde_json` uses for control escapes. -/
def hexDigit (n : Nat) : Char :=
  if n < 10 then Char.ofNat (48 + n) else Char.ofNat (87 + n)

/-- serde_json's escaping of a single character inside a JSON string literal:
`"` and `\` are backslash-escaped, the short escapes `\b \t \n \f \r` are used
where available, remaining control characters become `\u00XX`. -/
def escChar (c : Char) : List Char :=
  if c = '"' then ['\\', '"']
  else if c = '\\' then ['\\', '\\']
  else if c = Char.ofNat 8 then ['\\', 'b']
  else if c = Char.ofNat 9 then ['\\', 't']
  else if c = Char.ofNat 10 then ['\\', 'n']
  else if c = Char.ofNat 12 then ['\\', 'f']
  else if c = Char.ofNat 13 then ['\\', 'r']
  else if c.toNat < 32 then
    ['\\', 'u', '0', '0', hexDigit (c.toNat / 16), hexDigit (c.toNat % 16)]
  else [c]

def escapeChars : List Char → List Char
| [] => []
| c :: cs => escChar c ++ escapeChars cs

/- Canonical compact rendering (`serde_json::to_string` output shape). -/
mutual

def Json.renderChars : Json → List Char
| .str s => '"' :: (escapeChars s.data ++ ['"'])
| .arr es => '[' :: (es.renderChars ++ [']'])
| .obj fs => '{' :: (fs.renderChars ++ ['}'])

def JsonList.renderChars : JsonList → List Char
| .nil => []
| .cons h t => h.renderChars ++ t.renderTail

def JsonList.renderTail : JsonList → List Char
| .nil => []
| .cons h t => ',' :: (h.renderChars ++ t.renderTail)

def JsonFields.renderChars : JsonFields → List Char
| .nil => []
| .cons k v t => '"' :: (escapeChars k.data ++ ('"' :: ':' :: (v.renderChars ++ t.renderTail)))

def JsonFields.renderTail : JsonFields → List Char
| .nil => []
| .cons k v t =>
  ',' :: '"' :: (escapeChars k.data ++ ('"' :: ':' :: (v.renderChars ++ t.renderTail)))

end

def Json.render (j : Json) : String := ⟨j.renderChars⟩

/-! ## JSON parser -/

/-- Value of a hexadecimal digit character. -/
def hexVal (c : Char) : Option Nat :=
  if '0' ≤ c ∧ c ≤ '9' then some (c.toNat - 48)
  else if 'a' ≤ c ∧ c ≤ 'f' then some (c.toNat - 87)
  else if 'A' ≤ c ∧ c ≤ 'F' then some (c.toNat - 55)
  else none

/-- Parse the body of a JSON string literal (the opening `"` already consumed),
undoing `escChar`: returns the unescaped characters and the input remaining
after the closing `"`. -/
def parseStrBody : List Char → Option (List Char × List Char)
| [] => none
| c :: rest =>
  if c = '"' then some ([], rest)
  else if c = '\\' then
    match rest with
    | [] => none
    | e :: rest2 =>
      if e = '"' then (parseStrBody rest2).map (fun p => ('"' :: p.1, p.2))
      else if e = '\\' then (parseStrBody rest2).map (fun p => ('\\' :: p.1, p.2))
      else if e = 'b' then (parseStrBody rest2).map (fun p => (Char.ofNat 8 :: p.1, p.2))
      else if e = 't' then (parseStrBody rest2).map (fun p => (Char.ofNat 9 :: p.1, p.2))
      else if e = 'n' then (parseStrBody rest2).map (fun p => (Char.ofNat 10 :: p.1, p.2))
      else if e = 'f' then (parseStrBody rest2).map (fun p => (Char.ofNat 12 :: p.1, p.2))
      else if e = 'r' then (parseStrBody rest2).map (fun p => (Char.ofNat 13 :: p.1, p.2))
      else if e = 'u' then
        match rest2 with
        | h1 :: h2 :: h3 :: h4 :: rest3 =>
          match hexVal h1, hexVal h2, hexVal h3, hexVal h4 with
          | some a, some b, some c3, some d =>
            let n := ((a * 16 + b) * 16 + c3) * 16 + d
            if n < 55296 then
              (parseStrBody rest3).map (fun p => (Char.ofNat n :: p.1, p.2))
            else none
          | _, _, _, _ => none
        | _ => none
      else none
  else (parseStrBody rest).map (fun p => (c :: p.1, p.2))

/- Mutual fuel-indexed recursive-descent parser for the rendered JSON
fragment. Fuel strictly decreases on every mutual call, so the recursion is
structural in the fuel argument. -/
mutual

def parseVal : Nat → List Char → Option (Json × List Char)
| 0, _ => none
| _ + 1, [] => none
| f + 1, c :: cs =>
  if c = '"' then (parseStrBody cs).map (fun p => (Json.str ⟨p.1⟩, p.2))
  else if c = '[' then
    if cs.head? = some ']' then some (Json.arr JsonList.nil, cs.tail)
    else
      match parseVal f cs with
      | some (v, r) =>
        match parseListTail f r with
        | some (es, r2) => some (Json.arr (JsonList.cons v es), r2)
        | none => none
      | none => none
  else if c = '{' then
    if cs.head? = some '}' then some (Json.obj JsonFields.nil, cs.tail)
    else
      match parseFieldPair f cs with
      | some (k, v, r) =>
        match parseFieldsTail f r with
        | some (fs, r2) => some (Json.obj (JsonFields.cons k v fs), r2)
        | none => none
      | none => none
  else none

def parseListTail : Nat → List Char → Option (JsonList × List Char)
| 0, _ => none
| _ + 1, [] => none
| f + 1, c :: cs =>
  if c = ']' then some (JsonList.nil, cs)
  else if c = ',' then
    match parseVal f cs with
    | some (v, r) =>
      match parseListTail f r with
      | some (es, r2) => some (JsonList.cons v es, r2)
      | none => none
    | none => none
  else none

def parseFieldPair : Nat → List Char → Option (String × Json × List Char)
| 0, _ => none
| _ + 1, [] => none
| f + 1, c :: cs =>
  if c = '"' then
    match parseStrBody cs with
    | some (k, r) =>
      match r with
      | ':' :: r2 =>
        match parseVal f r2 with
        | some (v, r3) => some (⟨k⟩, v, r3)
        | none => none
      | _ => none
    | none => none
  else none

def parseFieldsTail : Nat → List Char → Option (JsonFields × List Char)
| 0, _ => none
| _ + 1, [] => none
| f + 1, c :: cs =>
  if c = '}' then some (JsonFields.nil, cs)
  else if c = ',' then
    match parseFieldPair f cs with
    | some (k, v, r) =>
      match parseFieldsTail f r with
      | some (fs, r2) => some (JsonFields.cons k v fs, r2)
      | none => none
    | none => none
  else none

end

/-- Parse a complete JSON document: the whole input must be consumed
(`serde_json::from_str` rejects trailing content). -/
def parseJson (s : String) : Option Json :=
  match parseVal (s.length + 1) s.data with
  | some (j, []) => some j
  | _ => none

/-! ## Decimal numerals and u128 parsing -/

def digitChar (n : Nat) : Char := Char.ofNat (48 + n)

def natDecimalAux : Nat → Nat → List Char
| 0, _ => []
| f + 1, n =>
  if n < 10 then [digitChar n] else natDecimalAux f (n / 10) ++ [digitChar (n % 10)]

/-- Decimal numeral of a natural number: the form in which cosmwasm
serializes a `Uint128` value (a JSON string of decimal digits). -/
def natDecimal (n : Nat) : String := ⟨natDecimalAux (n + 1) n⟩

def parseU128Chars (cs : List Char) : Option Nat :=
  if cs = [] then none
  else if cs.all (fun c => c.isDigit) then
    if cs.foldl (fun acc c => acc * 10 + (c.toNat - 48)) 0 < 2 ^ 128 then
      some (cs.foldl (fun acc c => acc * 10 + (c.toNat - 48)) 0)
    else none
  else none

/-- Model of Rust's `u128::from_str`, which is what
`Uint128::from_str(payment)` applies to the payment amount in
`build_execute_msg`: an optional leading `+`, then one or more ASCII digits
whose value fits in 128 bits; anything else is a parse error. -/
def parseU128 (s : String) : Option Nat :=
  parseU128Chars (if s.data.head? = some '+' then s.data.tail else s.data)

/-! ## Message grammars (external collaborator, modelled) -/

/-- Modelled from the spec: the Query Grammar is the externally supplied
tagged union of query variants (spec §2 "Grammar Provider", §3); the concrete
contract schema (`cw20_wrap::msg::QueryMsg`) is not part of this repository's
sources. Modelled as a representative tagged union: a variant with one string
field and a unit variant. -/
inductive QueryMsg where
| balance (address : String)
| tokenInfo
deriving DecidableEq

/-- Modelled from the spec: the Execute Grammar (spec §2, §3), a tagged union
whose variants carry string and `Uint128`-typed fields; a `Uint128` value
serializes as a decimal string. -/
inductive ExecuteMsg where
| transfer (recipient : String) (amount : Nat)
| burn (amount : Nat)
deriving DecidableEq

/-- A valid Execute Grammar instance: its `Uint128` fields are in range. -/
def ExecuteMsg.valid : ExecuteMsg → Prop
| .transfer _ n => n < 2 ^ 128
| .burn n => n < 2 ^ 128

def QueryMsg.toJson : QueryMsg → Json
| .balance a =>
  Json.obj (JsonFields.cons "balance"
    (Json.obj (JsonFields.cons "address" (Json.str a) JsonFields.nil)) JsonFields.nil)
| .tokenInfo =>
  Json.obj (JsonFields.cons "token_info" (Json.obj JsonFields.nil) JsonFields.nil)

def QueryMsg.fromJson (j : Json) : Option QueryMsg :=
  match j with
  | Json.obj (JsonFields.cons k inner JsonFields.nil) =>
    if k = "balance" then
      match inner with
      | Json.obj (JsonFields.cons k1 (Json.str a) JsonFields.nil) =>
        if k1 = "address" then some (QueryMsg.balance a) else none
      | _ => none
    else if k = "token_info" then
      match inner with
      | Json.obj JsonFields.nil => some QueryMsg.tokenInfo
      | _ => none
    else none
  | _ => none

def ExecuteMsg.toJson : ExecuteMsg → Json
| .transfer r n =>
  Json.obj (JsonFields.cons "transfer"
    (Json.obj (JsonFields.cons "recipient" (Json.str r)
      (JsonFields.cons "amount" (Json.str (natDecimal n)) JsonFields.nil)))
    JsonFields.nil)
| .burn n =>
  Json.obj (JsonFields.cons "burn"
    (Json.obj (JsonFields.cons "amount" (Json.str (natDecimal n)) JsonFields.nil))
    JsonFields.nil)

def ExecuteMsg.fromJson (j : Json) : Option ExecuteMsg :=
  match j with
  | Json.obj (JsonFields.cons k inner JsonFields.nil) =>
    if k = "transfer" then
      match inner with
      | Json.obj (JsonFields.cons k1 (Json.str r)
          (JsonFields.cons k2 (Json.str a) JsonFields.nil)) =>
        if k1 = "recipient" ∧ k2 = "amount" then
          (parseU128 a).map fun n => ExecuteMsg.transfer r n
        else none
      | _ => none
    else if k = "burn" then
      match inner with
      | Json.obj (JsonFields.cons k1 (Json.str a) JsonFields.nil) =>
        if k1 = "amount" then (parseU128 a).map fun n => ExecuteMsg.burn n else none
      | _ => none
    else none
  | _ => none

/-- Model of `serde_json::from_str::<QueryMsg>` on the raw payload string. -/
def parseQueryMsg (s : String) : Option QueryMsg :=
  (parseJson s).bind QueryMsg.fromJson

/-- Model of `serde_json::from_str::<ExecuteMsg>` on the raw payload string. -/
def parseExecuteMsg (s : String) : Option ExecuteMsg :=
  (parseJson s).bind ExecuteMsg.fromJson

/-- The canonical binary encoding `to_json_binary` of a query payload
(`Binary` modelled as the JSON text it wraps). -/
def QueryMsg.encode (m : QueryMsg) : String := m.toJson.render

/-- The canonical binary encoding `to_json_binary` of an execute payload. -/
def ExecuteMsg.encode (m : ExecuteMsg) : String := m.toJson.render

/-- Modelled from the spec: `decode`, the inverse a downstream consumer
applies to the canonical binary encoding (spec §8 property 1); the repository
itself only encodes. -/
def ExecuteMsg.decode (s : String) : Option ExecuteMsg :=
  (parseJson s).bind ExecuteMsg.fromJson

/-! ## Server data model (src/server.rs plus crate modules absent from src/) -/

/-- Modelled from the spec: `Network`, from the crate module `crate::contract`
absent from src/; per the spec (§3) the supported networks are Mainnet and
Testnet. -/
inductive Network where
| Mainnet
| Testnet
deriving DecidableEq

/-- Modelled from the spec: `CwContract` (the spec's Deployment record, §3),
from the crate module `crate::contract` absent from src/. -/
structure CwContract where
  network : Network
  chain_id : String
  contract_address : String
deriving DecidableEq

/-- Modelled from the spec: `CONTRACT_MAINNET`, a constant of
`crate::contract` absent from src/; per the spec (§3) a non-empty,
network-appropriate contract address on the `archway-1` mainnet. -/
def CONTRACT_MAINNET : String :=
  "archway1x2954lnmwgu0jsr7ne3vvkzqr67lqzzw2fffnl2wy7vjcjhfrkyqywpcpj"

/-- Modelled from the spec: `CONTRACT_TESTNET`, as `CONTRACT_MAINNET` but on
the `constantine-3` testnet. -/
def CONTRACT_TESTNET : String :=
  "archway1ywtwcdj2u6zfdvyrvzwarrsdwhlxr437l4zf8tqh7nwvmqtl03usfwpmgc"

/-- The server state: the fixed deployment registry (`contracts: [CwContract; 2]`,
the two-element array modelled as a list). -/
structure CwMcp where
  contracts : List CwContract
deriving DecidableEq

/-- `CwMcp::new` (src/server.rs 33–48). -/
def CwMcp.new : CwMcp :=
  { contracts :=
      [{ network := Network.Mainnet, chain_id := "archway-1",
         contract_address := CONTRACT_MAINNET },
       { network := Network.Testnet, chain_id := "constantine-3",
         contract_address := CONTRACT_TESTNET }] }

/-- Model of rmcp's `CallToolResult`: text content plus the success/error
discriminant set by `CallToolResult::success` / `CallToolResult::error`. -/
structure CallToolResult where
  isError : Bool
  content : List String
deriving DecidableEq

def CallToolResult.success (c : List String) : CallToolResult := ⟨false, c⟩

def CallToolResult.error (c : List String) : CallToolResult := ⟨true, c⟩

/-- Result of one tool invocation: either the `async fn` returns its
`Result<CallToolResult, rmcp::Error>` value (`rmcp::Error` modelled as its
message string), or the call panics — `.unwrap()` on a failed parse unwinds
instead of returning. -/
inductive Outcome where
| panics (msg : String)
| returns (r : Except String CallToolResult)

/-- Modelled from the spec: serde JSON shape of a `Network` value — the serde
rename policy of the missing `crate::contract` module is unknown; any fixed
injective rendering serves the claims. -/
def Network.toJson : Network → Json
| .Mainnet => Json.str "mainnet"
| .Testnet => Json.str "testnet"

/-- serde JSON shape of a `CwContract` record (fields in declaration order). -/
def CwContract.toJson (c : CwContract) : Json :=
  Json.obj (JsonFields.cons "network" c.network.toJson
    (JsonFields.cons "chain_id" (Json.str c.chain_id)
      (JsonFields.cons "contract_address" (Json.str c.contract_address) JsonFields.nil)))

def contractsJson : List CwContract → JsonList
| [] => JsonList.nil
| c :: cs => JsonList.cons c.toJson (contractsJson cs)

/-- Modelled from the spec: the document `schema_for!(QueryMsg)` produces —
the structural schema of the externally supplied Query Grammar (spec §4.1),
opaque to this core. -/
def querySchemaJson : Json :=
  Json.obj (JsonFields.cons "title" (Json.str "QueryMsg")
    (JsonFields.cons "type" (Json.str "object") JsonFields.nil))

/-- Modelled from the spec: the document `schema_for!(ExecuteMsg)` produces
(spec §4.1). -/
def txSchemaJson : Json :=
  Json.obj (JsonFields.cons "title" (Json.str "ExecuteMsg")
    (JsonFields.cons "type" (Json.str "object") JsonFields.nil))

/-- cosmwasm `Coin`: denom and a `Uint128` amount. -/
structure Coin where
  denom : String
  amount : Nat
deriving DecidableEq

/-- serde JSON shape of a `Coin` (`amount` serializes as a decimal string). -/
def Coin.toJson (c : Coin) : Json :=
  Json.obj (JsonFields.cons "denom" (Json.str c.denom)
    (JsonFields.cons "amount" (Json.str (natDecimal c.amount)) JsonFields.nil))

def fundsJson : List Coin → JsonList
| [] => JsonList.nil
| c :: cs => JsonList.cons c.toJson (fundsJson cs)

/-- serde shape of `QueryRequest::Wasm(WasmQuery::Smart { contract_addr, msg })`. -/
def queryRequestJson (contract_addr msg : String) : Json :=
  Json.obj (JsonFields.cons "wasm"
    (Json.obj (JsonFields.cons "smart"
      (Json.obj (JsonFields.cons "contract_addr" (Json.str contract_addr)
        (JsonFields.cons "msg" (Json.str msg) JsonFields.nil))) JsonFields.nil))
    JsonFields.nil)

/-- serde shape of `CosmosMsg::Wasm(WasmMsg::Execute { contract_addr, msg, funds })`. -/
def cosmosMsgJson (contract_addr msg : String) (funds : List Coin) : Json :=
  Json.obj (JsonFields.cons "wasm"
    (Json.obj (JsonFields.cons "execute"
      (Json.obj (JsonFields.cons "contract_addr" (Json.str contract_addr)
        (JsonFields.cons "msg" (Json.str msg)
          (JsonFields.cons "funds" (Json.arr (fundsJson funds)) JsonFields.nil))))
      JsonFields.nil)) JsonFields.nil)

/-- Modelled from the spec: serde shape of `ValidatedQuery` (`crate::query`,
absent from src/; spec §3: the original JSON string plus the serialized
envelope). -/
def validatedQueryJson (query_msg query_request : String) : Json :=
  Json.obj (JsonFields.cons "query_msg" (Json.str query_msg)
    (JsonFields.cons "query_request" (Json.str query_request) JsonFields.nil))

/-- Modelled from the spec: serde shape of `ValidatedExecute` (`crate::execute`,
absent from src/; spec §3). -/
def validatedExecuteJson (execute_msg cosmos_msg : String) : Json :=
  Json.obj (JsonFields.cons "execute_msg" (Json.str execute_msg)
    (JsonFields.cons "cosmos_msg" (Json.str cosmos_msg) JsonFields.nil))

/-! ## The tool operations -/

/-- The model `serde_json::to_string`, total on this value domain. -/
def serdeToString (j : Json) : Option String := some j.render

/-- The model `to_json_binary` on a parsed query payload. -/
def toJsonBinaryQuery (m : QueryMsg) : Option String := some m.toJson.render

/-- The model `to_json_binary` on a parsed execute payload. -/
def toJsonBinaryExecute (m : ExecuteMsg) : Option String := some m.toJson.render

/-- `list_contract_deployments` (src/server.rs 52–55), parameterized by the
serializer. A serialization failure degrades to the empty string
(`unwrap_or("".to_string())`); the call itself always succeeds. -/
def listContractDeploymentsWith (ser : Json → Option String) (s : CwMcp) : Outcome :=
  Outcome.returns (Except.ok (CallToolResult.success
    [(ser (Json.arr (contractsJson s.contracts))).getD ""]))

def list_contract_deployments (s : CwMcp) : Outcome :=
  listContractDeploymentsWith serdeToString s

/-- `list_query_entry_points` (src/server.rs 59–63). -/
def listQueryEntryPointsWith (ser : Json → Option String) : Outcome :=
  Outcome.returns (Except.ok (CallToolResult.success [(ser querySchemaJson).getD ""]))

def list_query_entry_points : Outcome := listQueryEntryPointsWith serdeToString

/-- `list_tx_entry_points` (src/server.rs 115–119). -/
def listTxEntryPointsWith (ser : Json → Option String) : Outcome :=
  Outcome.returns (Except.ok (CallToolResult.success [(ser txSchemaJson).getD ""]))

def list_tx_entry_points : Outcome := listTxEntryPointsWith serdeToString

/-- `build_query_msg` (src/server.rs 81–111), parameterized by
`serde_json::to_string` (`ser`) and `to_json_binary` (`enc`):
`from_str(query_msg).unwrap()` panics on a parse failure; an encoding failure
falls back to `Binary::default()` (`unwrap_or_default`, the empty binary); an
envelope serialization failure returns the fixed error result; otherwise the
serialized `ValidatedQuery` is returned as a success result. -/
def buildQueryMsgWith (ser : Json → Option String) (enc : QueryMsg → Option String)
    (contract_addr query_msg : String) : Outcome :=
  match parseQueryMsg query_msg with
  | none => Outcome.panics "called Result::unwrap on an Err value"
  | some m =>
    match ser (queryRequestJson contract_addr ((enc m).getD "")) with
    | none =>
      Outcome.returns (Except.ok (CallToolResult.error
        ["Error wrapping QueryMsg as QueryRequest"]))
    | some s =>
      Outcome.returns (Except.ok (CallToolResult.success
        [(ser (validatedQueryJson query_msg s)).getD ""]))

def build_query_msg (contract_addr query_msg : String) : Outcome :=
  buildQueryMsgWith serdeToString toJsonBinaryQuery contract_addr query_msg

/-- Funds resolution of `build_execute_msg` (src/server.rs 146–154): when both
payment fields are supplied, one `Coin` is always constructed, with
`Uint128::from_str(payment).unwrap_or_default()` as the amount — a failed
amount parse silently becomes 0; it does not empty the funds vector. -/
def executeFunds (payment payment_denom : Option String) : List Coin :=
  if payment.isSome && payment_denom.isSome then
    [{ denom := payment_denom.getD "", amount := (parseU128 (payment.getD "")).getD 0 }]
  else []

/-- `build_execute_msg` (src/server.rs 123–174), parameterized like
`buildQueryMsgWith`. -/
def buildExecuteMsgWith (ser : Json → Option String) (enc : ExecuteMsg → Option String)
    (contract_addr execute_msg : String) (payment payment_denom : Option String) :
    Outcome :=
  match parseExecuteMsg execute_msg with
  | none => Outcome.panics "called Result::unwrap on an Err value"
  | some m =>
    match ser (cosmosMsgJson contract_addr ((enc m).getD "")
        (executeFunds payment payment_denom)) with
    | none =>
      Outcome.returns (Except.ok (CallToolResult.error
        ["Error wrapping ExecuteMsg as CosmosMsg"]))
    | some s =>
      Outcome.returns (Except.ok (CallToolResult.success
        [(ser (validatedExecuteJson execute_msg s)).getD ""]))

def build_execute_msg (contract_addr execute_msg : String)
    (payment payment_denom : Option String) : Outcome :=
  buildExecuteMsgWith serdeToString toJsonBinaryExecute contract_addr execute_msg
    payment payment_denom

/-- An invocation never uses the host-level failure channel: if it returns at
all (rather than panicking), the returned `Result` is the `Ok` variant. -/
def Outcome.noHostError : Outcome → Prop
| .panics _ => True
| .returns e => ∃ r, e = Except.ok r

/-! ## Sanity evaluations -/

example : (Json.arr (JsonList.cons (Json.str "a") JsonList.nil)).render = "[\"a\"]" := rfl

example :
    (Json.obj (JsonFields.cons "k" (Json.str "v") JsonFields.nil)).render
      = "\x7b\"k\":\"v\"\x7d" := rfl

example : parseJson "[\"a\",\"b\"]"
    = some (Json.arr (JsonList.cons (Json.str "a")
        (JsonList.cons (Json.str "b") JsonList.nil))) := rfl

example : parseJson "\x7b\"k\":\"v\"\x7d"
    = some (Json.obj (JsonFields.cons "k" (Json.str "v") JsonFields.nil)) := rfl

example : parseJson "\x7bnot json" = none := rfl

example : parseJson (Json.render (Json.obj (JsonFields.cons "a"
    (Json.str "x\"y\\z\n") (JsonFields.cons "b" (Json.arr JsonList.nil) JsonFields.nil))))
    = some (Json.obj (JsonFields.cons "a"
    (Json.str "x\"y\\z\n") (JsonFields.cons "b" (Json.arr JsonList.nil) JsonFields.nil))) := rfl

example : parseU128 "100" = some 100 := rfl
example : parseU128 "not-a-number" = none := rfl
example : parseU128 "" = none := rfl
example : parseU128 "-5" = none := rfl
example : parseU128 "+17" = some 17 := rfl
example : parseU128 "340282366920938463463374607431768211456" = none := rfl
example : parseU128 "340282366920938463463374607431768211455" = some (2 ^ 128 - 1) := rfl

/-! ## Parser inverts renderer -/

theorem hexVal_hexDigit (n : Nat) (h : n < 16) : hexVal (hexDigit n) = some n := by
  interval_cases n <;> decide

theorem parseStrBody_escape (l : List Char) :
    ∀ rest, parseStrBody (escapeChars l ++ ('"' :: rest)) = some (l, rest) := by
  induction l with
  | nil => intro rest; rw [escapeChars, List.nil_append, parseStrBody.eq_def]; simp
  | cons c cs ih =>
    intro rest
    rw [escapeChars, List.append_assoc]
    by_cases h1 : c = '"'
    · subst h1; rw [escChar]; simp only [if_true, List.cons_append, List.nil_append]
      rw [parseStrBody.eq_def]; simp [ih]
    by_cases h2 : c = '\\'
    · subst h2; rw [escChar]; simp only [List.cons_append, List.nil_append,
        show (('\\' : Char) = '"') = False by simp, if_false, if_true]
      rw [parseStrBody.eq_def]; simp [ih]
    by_cases h3 : c = Char.ofNat 8
    · subst h3; have he : escChar (Char.ofNat 8) = ['\\', 'b'] := by decide
      rw [he]; simp only [List.cons_append, List.nil_append]
      rw [parseStrBody.eq_def]; simp [ih]
    by_cases h4 : c = Char.ofNat 9
    · subst h4; have he : escChar (Char.ofNat 9) = ['\\', 't'] := by decide
      rw [he]; simp only [List.cons_append, List.nil_append]
      rw [parseStrBody.eq_def]; simp [ih]
    by_cases h5 : c = Char.ofNat 10
    · subst h5; have he : escChar (Char.ofNat 10) = ['\\', 'n'] := by decide
      rw [he]; simp only [List.cons_append, List.nil_append]
      rw [parseStrBody.eq_def]; simp [ih]
    by_cases h6 : c = Char.ofNat 12
    · subst h6; have he : escChar (Char.ofNat 12) = ['\\', 'f'] := by decide
      rw [he]; simp only [List.cons_append, List.nil_append]
      rw [parseStrBody.eq_def]; simp [ih]
    by_cases h7 : c = Char.ofNat 13
    · subst h7; have he : escChar (Char.ofNat 13) = ['\\', 'r'] := by decide
      rw [he]; simp only [List.cons_append, List.nil_append]
      rw [parseStrBody.eq_def]; simp [ih]
    by_cases h8 : c.toNat < 32
    · have hd : c.toNat / 16 < 16 := by omega
      have hm : c.toNat % 16 < 16 := by omega
      have he : escChar c
          = ['\\', 'u', '0', '0', hexDigit (c.toNat / 16), hexDigit (c.toNat % 16)] := by
        rw [escChar]
        simp [h1, h2, h3, h4, h5, h6, h7, h8]
      rw [he]; simp only [List.cons_append, List.nil_append]
      rw [parseStrBody.eq_def]
      simp only [show (('\\' : Char) = '"') = False by simp, if_false, if_true,
        show (('u' : Char) = '"') = False by simp, show (('u' : Char) = '\\') = False by simp,
        show (('u' : Char) = 'b') = False by simp, show (('u' : Char) = 't') = False by simp,
        show (('u' : Char) = 'n') = False by simp, show (('u' : Char) = 'f') = False by simp,
        show (('u' : Char) = 'r') = False by simp, ite_true, ite_false]
      simp only [show hexVal '0' = some 0 by decide, hexVal_hexDigit _ hd, hexVal_hexDigit _ hm]
      have hval : ((0 * 16 + 0) * 16 + c.toNat / 16) * 16 + c.toNat % 16 = c.toNat := by
        omega
      have hval2 : c.toNat / 16 * 16 + c.toNat % 16 = c.toNat := by omega
      simp [hval, hval2, show c.toNat < 55296 by omega, Char.ofNat_toNat, ih]
    · have hesc : escChar c = [c] := by
        rw [escChar]; simp [h1, h2, h3, h4, h5, h6, h7, h8]
      rw [hesc, List.cons_append, List.nil_append, parseStrBody.eq_def]
      simp [h1, h2, ih]

/- The node count of a JSON tree is below the length of its rendering, so
`length + 1` is always sufficient parser fuel. -/
mutual

theorem Json.nodes_lt_length : ∀ j : Json, j.nodes < j.renderChars.length
| .str s => by simp [Json.nodes, Json.renderChars]
| .arr es => by
  have h1 := JsonList.nodes_le_length es
  simp only [Json.nodes, Json.renderChars, List.length_cons, List.length_append]
  omega
| .obj fs => by
  have h1 := JsonFields.fieldsNodes_le_length fs
  simp only [Json.nodes, Json.renderChars, List.length_cons, List.length_append]
  omega

theorem JsonList.nodes_le_length : ∀ t : JsonList, t.nodes ≤ t.renderChars.length
| .nil => by simp [JsonList.nodes, JsonList.renderChars]
| .cons h t => by
  have h1 := Json.nodes_lt_length h
  have h2 := JsonList.nodes_le_tail_length t
  simp only [JsonList.nodes, JsonList.renderChars, List.length_append]
  omega

theorem JsonList.nodes_le_tail_length : ∀ t : JsonList, t.nodes ≤ t.renderTail.length
| .nil => by simp [JsonList.nodes, JsonList.renderTail]
| .cons h t => by
  have h1 := Json.nodes_lt_length h
  have h2 := JsonList.nodes_le_tail_length t
  simp only [JsonList.nodes, JsonList.renderTail, List.length_cons, List.length_append]
  omega

theorem JsonFields.fieldsNodes_le_length : ∀ t : JsonFields, t.nodes ≤ t.renderChars.length
| .nil => by simp [JsonFields.nodes, JsonFields.renderChars]
| .cons k v t => by
  have h1 := Json.nodes_lt_length v
  have h2 := JsonFields.fieldsNodes_le_tail_length t
  simp only [JsonFields.nodes, JsonFields.renderChars, List.length_cons, List.length_append]
  omega

theorem JsonFields.fieldsNodes_le_tail_length : ∀ t : JsonFields, t.nodes ≤ t.renderTail.length
| .nil => by simp [JsonFields.nodes, JsonFields.renderTail]
| .cons k v t => by
  have h1 := Json.nodes_lt_length v
  have h2 := JsonFields.fieldsNodes_le_tail_length t
  simp only [JsonFields.nodes, JsonFields.renderTail, List.length_cons, List.length_append]
  omega

end

/-- Every rendered JSON value starts with `"`, `[` or `{`. -/
theorem renderChars_head (j : Json) :
    ∃ c cs, j.renderChars = c :: cs ∧ (c = '"' ∨ c = '[' ∨ c = '{') := by
  cases j with
  | str s => exact ⟨'"', _, rfl, Or.inl rfl⟩
  | arr es => exact ⟨'[', _, rfl, Or.inr (Or.inl rfl)⟩
  | obj fs => exact ⟨'{', _, rfl, Or.inr (Or.inr rfl)⟩

/-- `parseFieldPair` inverts the rendering of one `"key":value` pair, given
that `parseVal` inverts the rendering of the value. -/
theorem parseFieldPair_render_of (k : String) (v : Json)
    (ihv : ∀ (rest : List Char) (f : Nat), v.nodes ≤ f →
      parseVal f (v.renderChars ++ rest) = some (v, rest)) :
    ∀ (rest : List Char) (f : Nat), v.nodes < f →
      parseFieldPair f
          ('"' :: (escapeChars k.data ++ ('"' :: (':' :: (v.renderChars ++ rest)))))
        = some (k, v, rest) := by
  intro rest f hf
  obtain ⟨g, rfl⟩ : ∃ g, f = g + 1 := ⟨f - 1, by omega⟩
  rw [parseFieldPair.eq_def]
  have h1 : parseStrBody (escapeChars k.data ++ ('"' :: (':' :: (v.renderChars ++ rest))))
      = some (k.data, ':' :: (v.renderChars ++ rest)) := parseStrBody_escape _ _
  simp [h1, ihv rest g (by omega)]

mutual

theorem parseVal_render : ∀ (j : Json) (rest : List Char) (f : Nat), j.nodes ≤ f →
    parseVal f (j.renderChars ++ rest) = some (j, rest)
| .str s, rest, f, hf => by
  simp only [Json.nodes] at hf
  obtain ⟨g, rfl⟩ : ∃ g, f = g + 1 := ⟨f - 1, by omega⟩
  rw [Json.renderChars]
  simp only [List.cons_append, List.append_assoc, List.singleton_append]
  rw [parseVal.eq_def]
  simp [parseStrBody_escape]
| .arr .nil, rest, f, hf => by
  simp only [Json.nodes, JsonList.nodes] at hf
  obtain ⟨g, rfl⟩ : ∃ g, f = g + 1 := ⟨f - 1, by omega⟩
  rw [Json.renderChars, JsonList.renderChars]
  simp only [List.nil_append, List.cons_append, List.singleton_append]
  rw [parseVal.eq_def]
  simp
| .arr (.cons v t), rest, f, hf => by
  simp only [Json.nodes, JsonList.nodes] at hf
  obtain ⟨g, rfl⟩ : ∃ g, f = g + 1 := ⟨f - 1, by omega⟩
  rw [Json.renderChars, JsonList.renderChars]
  simp only [List.cons_append, List.append_assoc, List.singleton_append]
  rw [parseVal.eq_def]
  obtain ⟨c0, cs0, hv0, hc0⟩ := renderChars_head v
  have hc0ne : c0 ≠ ']' := by rcases hc0 with h | h | h <;> subst h <;> decide
  have hhead : ¬ ((v.renderChars ++ (t.renderTail ++ (']' :: rest))).head? = some ']') := by
    rw [hv0]; simp [hc0ne]
  have hv := parseVal_render v (t.renderTail ++ (']' :: rest)) g (by omega)
  have ht := parseListTail_render t rest g (by omega)
  simp [hhead, hv, ht]
  refine ⟨?_, ?_⟩
  · rw [hv0]; simp [hc0ne]
  · rw [hv0]; simp
| .obj .nil, rest, f, hf => by
  simp only [Json.nodes, JsonFields.nodes] at hf
  obtain ⟨g, rfl⟩ : ∃ g, f = g + 1 := ⟨f - 1, by omega⟩
  rw [Json.renderChars, JsonFields.renderChars]
  simp only [List.nil_append, List.cons_append, List.singleton_append]
  rw [parseVal.eq_def]
  simp
| .obj (.cons k v t), rest, f, hf => by
  simp only [Json.nodes, JsonFields.nodes] at hf
  obtain ⟨g, rfl⟩ : ∃ g, f = g + 1 := ⟨f - 1, by omega⟩
  rw [Json.renderChars, JsonFields.renderChars]
  simp only [List.cons_append, List.append_assoc, List.singleton_append]
  rw [parseVal.eq_def]
  have hp := parseFieldPair_render_of k v (fun r fl h => parseVal_render v r fl h)
      (t.renderTail ++ ('}' :: rest)) g (by omega)
  have ht := parseFieldsTail_render t rest g (by omega)
  simp [hp, ht]

theorem parseListTail_render : ∀ (t : JsonList) (rest : List Char) (f : Nat), t.nodes < f →
    parseListTail f (t.renderTail ++ (']' :: rest)) = some (t, rest)
| .nil, rest, f, hf => by
  simp only [JsonList.nodes] at hf
  obtain ⟨g, rfl⟩ : ∃ g, f = g + 1 := ⟨f - 1, by omega⟩
  rw [JsonList.renderTail, List.nil_append, parseListTail.eq_def]
  simp
| .cons h t2, rest, f, hf => by
  simp only [JsonList.nodes] at hf
  obtain ⟨g, rfl⟩ : ∃ g, f = g + 1 := ⟨f - 1, by omega⟩
  rw [JsonList.renderTail]
  simp only [List.cons_append, List.append_assoc]
  rw [parseListTail.eq_def]
  have hv := parseVal_render h (t2.renderTail ++ (']' :: rest)) g (by omega)
  have ht := parseListTail_render t2 rest g (by omega)
  simp [hv, ht]

theorem parseFieldsTail_render : ∀ (t : JsonFields) (rest : List Char) (f : Nat),
    t.nodes < f → parseFieldsTail f (t.renderTail ++ ('}' :: rest)) = some (t, rest)
| .nil, rest, f, hf => by
  simp only [JsonFields.nodes] at hf
  obtain ⟨g, rfl⟩ : ∃ g, f = g + 1 := ⟨f - 1, by omega⟩
  rw [JsonFields.renderTail, List.nil_append, parseFieldsTail.eq_def]
  simp
| .cons k v t2, rest, f, hf => by
  simp only [JsonFields.nodes] at hf
  obtain ⟨g, rfl⟩ : ∃ g, f = g + 1 := ⟨f - 1, by omega⟩
  rw [JsonFields.renderTail]
  simp only [List.cons_append, List.append_assoc]
  rw [parseFieldsTail.eq_def]
  have hp := parseFieldPair_render_of k v (fun r fl h => parseVal_render v r fl h)
      (t2.renderTail ++ ('}' :: rest)) g (by omega)
  have ht := parseFieldsTail_render t2 rest g (by omega)
  simp [hp, ht]

end

/-- The JSON parser inverts the canonical renderer on every value. -/
theorem parseJson_render (j : Json) : parseJson j.render = some j := by
  rw [parseJson]
  have h := parseVal_render j [] (j.renderChars.length + 1)
    (by have := Json.nodes_lt_length j; omega)
  rw [List.append_nil] at h
  rw [show (Json.render j).data = j.renderChars from rfl,
    show (Json.render j).length = j.renderChars.length from rfl, h]

theorem digitChar_isDigit (d : Nat) (h : d < 10) : (digitChar d).isDigit = true := by
  interval_cases d <;> decide

theorem digitChar_toNat (d : Nat) (h : d < 10) : (digitChar d).toNat = 48 + d := by
  interval_cases d <;> decide

theorem natDecimalAux_spec : ∀ f n : Nat, n < f →
    natDecimalAux f n ≠ [] ∧ (∀ c ∈ natDecimalAux f n, c.isDigit = true) ∧
    ∀ acc : Nat, (natDecimalAux f n).foldl (fun a c => a * 10 + (c.toNat - 48)) acc
      = acc * 10 ^ (natDecimalAux f n).length + n := by
  intro f
  induction f with
  | zero => intro n h; omega
  | succ f ih =>
    intro n h
    rw [natDecimalAux]
    by_cases h10 : n < 10
    · simp only [h10, if_true]
      refine ⟨by simp, ?_, ?_⟩
      · intro c hc
        simp only [List.mem_singleton] at hc
        subst hc
        exact digitChar_isDigit n h10
      · intro acc
        simp only [List.foldl_cons, List.foldl_nil, List.length_singleton,
          digitChar_toNat n h10, pow_one]
        omega
    · simp only [h10, if_false]
      obtain ⟨hne, hdig, hfold⟩ := ih (n / 10) (by omega)
      refine ⟨by simp, ?_, ?_⟩
      · intro c hc
        rcases List.mem_append.mp hc with h1 | h1
        · exact hdig c h1
        · simp only [List.mem_singleton] at h1
          subst h1
          exact digitChar_isDigit _ (by omega)
      · intro acc
        rw [List.foldl_append, hfold acc]
        simp only [List.foldl_cons, List.foldl_nil, List.length_append,
          List.length_singleton, digitChar_toNat (n % 10) (by omega)]
        rw [pow_succ, ← mul_assoc]
        omega

theorem parseU128_natDecimal (n : Nat) (h : n < 2 ^ 128) :
    parseU128 (natDecimal n) = some n := by
  obtain ⟨hne, hdig, hfold⟩ := natDecimalAux_spec (n + 1) n (by omega)
  have hdata : (natDecimal n).data = natDecimalAux (n + 1) n := rfl
  rw [parseU128, hdata]
  have hplus : ¬ ((natDecimalAux (n + 1) n).head? = some '+') := by
    cases hc : natDecimalAux (n + 1) n with
    | nil => simp
    | cons c cs =>
      have hcd : c.isDigit = true := hdig c (by rw [hc]; exact List.mem_cons_self c cs)
      simp only [List.head?_cons, Option.some.injEq]
      intro hceq
      rw [hceq] at hcd
      exact absurd hcd (by decide)
  rw [if_neg hplus, parseU128Chars, if_neg hne]
  have hall : (natDecimalAux (n + 1) n).all (fun c => c.isDigit) = true := by
    rw [List.all_eq_true]
    intro c hcmem
    exact hdig c hcmem
  rw [if_pos (by rw [hall])]
  have hf0 := hfold 0
  rw [hf0, Nat.zero_mul, Nat.zero_add]
  rw [if_pos h]

/-! ## Claims -/

/-- C2: the claim says malformed JSON passed to `build_query_msg` or
`build_execute_msg` yields an error result and never aborts. The code instead
calls `serde_json::from_str(..).unwrap()` (src/server.rs 94, 155): on the
syntactically invalid payload `"{not json"` both operations hit the panic
branch rather than returning any result — the claim is the spec's stated
intent (spec §4.2, §9 call the abort a defect to correct), the code violates
it. -/
theorem c2_unwrap_panics_on_malformed_json :
    parseJson "\x7bnot json" = none ∧
    build_query_msg "archway1contract" "\x7bnot json"
      = Outcome.panics "called Result::unwrap on an Err value" ∧
    build_execute_msg "archway1contract" "\x7bnot json" none none
      = Outcome.panics "called Result::unwrap on an Err value" :=
  ⟨rfl, rfl, rfl⟩

/-- C1 counterexample: with an unparsable payment amount and both payment
fields supplied, the funds sequence of the produced envelope is NOT empty —
`Uint128::from_str("not-a-number").unwrap_or_default()` yields 0 and a
one-element funds vector `[Coin { denom: "uarch", amount: 0 }]` is still
built (src/server.rs 146–154). -/
theorem c1_counterexample :
    executeFunds (some "not-a-number") (some "uarch")
        = [{ denom := "uarch", amount := 0 }] ∧
    [({ denom := "uarch", amount := 0 } : Coin)] ≠ ([] : List Coin) ∧
    build_execute_msg "archway1contract" ((ExecuteMsg.burn 5).toJson.render)
        (some "not-a-number") (some "uarch")
      = Outcome.returns (Except.ok (CallToolResult.success
          [(validatedExecuteJson ((ExecuteMsg.burn 5).toJson.render)
              ((cosmosMsgJson "archway1contract" (ExecuteMsg.burn 5).encode
                [{ denom := "uarch", amount := 0 }]).render)).render])) :=
  ⟨rfl, by decide, rfl⟩

/-- C1 (amended): when both payment fields are supplied but the amount fails
to parse as a u128, `build_execute_msg` does not crash — it returns a success
result — but the funds sequence is a ONE-element sequence holding the
supplied denom with amount 0 (the failed parse is silently defaulted to
zero), not the empty sequence. -/
theorem c1_amended_unparsable_payment_zero_coin :
    ∀ (addr e p d : String) (m : ExecuteMsg),
      parseExecuteMsg e = some m → parseU128 p = none →
      executeFunds (some p) (some d) = [{ denom := d, amount := 0 }] ∧
      build_execute_msg addr e (some p) (some d)
        = Outcome.returns (Except.ok (CallToolResult.success
            [(validatedExecuteJson e ((cosmosMsgJson addr m.encode
                [{ denom := d, amount := 0 }]).render)).render])) := by
  intro addr e p d m hm hp
  have hfunds : executeFunds (some p) (some d) = [{ denom := d, amount := 0 }] := by
    simp [executeFunds, hp]
  refine ⟨hfunds, ?_⟩
  simp [build_execute_msg, buildExecuteMsgWith, hm, hfunds, serdeToString,
    toJsonBinaryExecute, ExecuteMsg.encode]

theorem c1_amended_witness :
    parseExecuteMsg ((ExecuteMsg.burn 5).toJson.render) = some (ExecuteMsg.burn 5) ∧
    parseU128 "not-a-number" = none ∧
    executeFunds (some "not-a-number") (some "uarch")
        = [{ denom := "uarch", amount := 0 }] ∧
    build_execute_msg "archway1contract" ((ExecuteMsg.burn 5).toJson.render)
        (some "not-a-number") (some "uarch")
      = Outcome.returns (Except.ok (CallToolResult.success
          [(validatedExecuteJson ((ExecuteMsg.burn 5).toJson.render)
              ((cosmosMsgJson "archway1contract" (ExecuteMsg.burn 5).encode
                [{ denom := "uarch", amount := 0 }]).render)).render])) := by
  have h := c1_amended_unparsable_payment_zero_coin "archway1contract"
    ((ExecuteMsg.burn 5).toJson.render) "not-a-number" "uarch" (ExecuteMsg.burn 5)
    rfl rfl
  exact ⟨rfl, rfl, h.1, h.2⟩

/-- C3: funds resolution of `build_execute_msg` on a valid execute payload —
if both payment and denom are supplied and the amount parses, the envelope's
funds field is exactly the one-element sequence with that amount and denom;
if either is absent, the funds field is the empty sequence (and the call
succeeds in both cases). -/
theorem c3_funds_resolution :
    ∀ (addr e : String) (m : ExecuteMsg), parseExecuteMsg e = some m →
      (∀ (p d : String) (n : Nat), parseU128 p = some n →
        executeFunds (some p) (some d) = [{ denom := d, amount := n }] ∧
        build_execute_msg addr e (some p) (some d)
          = Outcome.returns (Except.ok (CallToolResult.success
              [(validatedExecuteJson e ((cosmosMsgJson addr m.encode
                  [{ denom := d, amount := n }]).render)).render]))) ∧
      (∀ p d : Option String, p = none ∨ d = none →
        executeFunds p d = [] ∧
        build_execute_msg addr e p d
          = Outcome.returns (Except.ok (CallToolResult.success
              [(validatedExecuteJson e
                  ((cosmosMsgJson addr m.encode []).render)).render]))) := by
  intro addr e m hm
  constructor
  · intro p d n hp
    have hfunds : executeFunds (some p) (some d) = [{ denom := d, amount := n }] := by
      simp [executeFunds, hp]
    refine ⟨hfunds, ?_⟩
    simp [build_execute_msg, buildExecuteMsgWith, hm, hfunds, serdeToString,
      toJsonBinaryExecute, ExecuteMsg.encode]
  · intro p d hpd
    have hfunds : executeFunds p d = [] := by
      rcases hpd with h | h <;> subst h <;> simp [executeFunds]
    refine ⟨hfunds, ?_⟩
    simp [build_execute_msg, buildExecuteMsgWith, hm, hfunds, serdeToString,
      toJsonBinaryExecute, ExecuteMsg.encode]

theorem c3_funds_resolution_witness :
    parseExecuteMsg ((ExecuteMsg.burn 5).toJson.render) = some (ExecuteMsg.burn 5) ∧
    parseU128 "100" = some 100 ∧
    executeFunds (some "100") (some "uarch") = [{ denom := "uarch", amount := 100 }] ∧
    build_execute_msg "archway1contract" ((ExecuteMsg.burn 5).toJson.render)
        (some "100") (some "uarch")
      = Outcome.returns (Except.ok (CallToolResult.success
          [(validatedExecuteJson ((ExecuteMsg.burn 5).toJson.render)
              ((cosmosMsgJson "archway1contract" (ExecuteMsg.burn 5).encode
                [{ denom := "uarch", amount := 100 }]).render)).render])) ∧
    executeFunds none (some "uarch") = [] := by
  have h := c3_funds_resolution "archway1contract"
    ((ExecuteMsg.burn 5).toJson.render) (ExecuteMsg.burn 5) rfl
  have h1 := h.1 "100" "uarch" 100 rfl
  have h2 := h.2 none (some "uarch") (Or.inl rfl)
  exact ⟨rfl, rfl, h1.1, h1.2, h2.1⟩

/-- C4: on a well-formed query payload, `build_query_msg` returns a success
result bundling the original raw payload string unchanged together with the
serialized `QueryRequest` envelope, and that envelope parses back to a
`wasm.smart` object whose `contract_addr` equals the given address and whose
`msg` is the canonical binary encoding of the payload. -/
theorem c4_build_query_success :
    ∀ (addr q : String) (m : QueryMsg), parseQueryMsg q = some m →
      build_query_msg addr q
        = Outcome.returns (Except.ok (CallToolResult.success
            [(validatedQueryJson q ((queryRequestJson addr m.encode).render)).render])) ∧
      parseJson ((queryRequestJson addr m.encode).render)
        = some (queryRequestJson addr m.encode) ∧
      queryRequestJson addr m.encode
        = Json.obj (JsonFields.cons "wasm" (Json.obj (JsonFields.cons "smart"
            (Json.obj (JsonFields.cons "contract_addr" (Json.str addr)
              (JsonFields.cons "msg" (Json.str m.encode) JsonFields.nil)))
            JsonFields.nil)) JsonFields.nil) := by
  intro addr q m hm
  refine ⟨?_, parseJson_render _, rfl⟩
  simp [build_query_msg, buildQueryMsgWith, hm, serdeToString, toJsonBinaryQuery,
    QueryMsg.encode]

theorem c4_build_query_success_witness :
    parseQueryMsg (QueryMsg.tokenInfo.toJson.render) = some QueryMsg.tokenInfo ∧
    build_query_msg "archway1contract" (QueryMsg.tokenInfo.toJson.render)
      = Outcome.returns (Except.ok (CallToolResult.success
          [(validatedQueryJson (QueryMsg.tokenInfo.toJson.render)
              ((queryRequestJson "archway1contract"
                QueryMsg.tokenInfo.encode).render)).render])) := by
  have h := c4_build_query_success "archway1contract"
    (QueryMsg.tokenInfo.toJson.render) QueryMsg.tokenInfo rfl
  exact ⟨rfl, h.1⟩

/-- C5: when serializing the constructed outer envelope fails (after the
payload itself parsed), both builders return the fixed diagnostic error
result — "Error wrapping QueryMsg as QueryRequest" for queries, "Error
wrapping ExecuteMsg as CosmosMsg" for executes — rather than panicking or
succeeding (src/server.rs 99–104, 162–167). -/
theorem c5_envelope_serialization_error :
    ∀ (ser : Json → Option String) (encq : QueryMsg → Option String)
      (ence : ExecuteMsg → Option String) (addr q e : String) (p d : Option String)
      (mq : QueryMsg) (me : ExecuteMsg),
      (parseQueryMsg q = some mq →
        ser (queryRequestJson addr ((encq mq).getD "")) = none →
        buildQueryMsgWith ser encq addr q
          = Outcome.returns (Except.ok (CallToolResult.error
              ["Error wrapping QueryMsg as QueryRequest"]))) ∧
      (parseExecuteMsg e = some me →
        ser (cosmosMsgJson addr ((ence me).getD "") (executeFunds p d)) = none →
        buildExecuteMsgWith ser ence addr e p d
          = Outcome.returns (Except.ok (CallToolResult.error
              ["Error wrapping ExecuteMsg as CosmosMsg"]))) := by
  intro ser encq ence addr q e p d mq me
  constructor
  · intro hm hser
    simp [buildQueryMsgWith, hm, hser]
  · intro hm hser
    simp [buildExecuteMsgWith, hm, hser]

theorem c5_envelope_serialization_error_witness :
    parseQueryMsg (QueryMsg.tokenInfo.toJson.render) = some QueryMsg.tokenInfo ∧
    parseExecuteMsg ((ExecuteMsg.burn 5).toJson.render) = some (ExecuteMsg.burn 5) ∧
    buildQueryMsgWith (fun _ => none) toJsonBinaryQuery "archway1contract"
        (QueryMsg.tokenInfo.toJson.render)
      = Outcome.returns (Except.ok (CallToolResult.error
          ["Error wrapping QueryMsg as QueryRequest"])) ∧
    buildExecuteMsgWith (fun _ => none) toJsonBinaryExecute "archway1contract"
        ((ExecuteMsg.burn 5).toJson.render) none none
      = Outcome.returns (Except.ok (CallToolResult.error
          ["Error wrapping ExecuteMsg as CosmosMsg"])) := by
  have h := c5_envelope_serialization_error (fun _ => none) toJsonBinaryQuery
    toJsonBinaryExecute "archway1contract" (QueryMsg.tokenInfo.toJson.render)
    ((ExecuteMsg.burn 5).toJson.render) none none QueryMsg.tokenInfo (ExecuteMsg.burn 5)
  exact ⟨rfl, rfl, h.1 rfl rfl, h.2 rfl rfl⟩

/-- C6: the canonical binary encoding of the Execute Grammar round-trips —
`decode (encode m) = some m` for every valid instance — and is a
deterministic function of the typed value, so logically identical messages
encode byte-identically. -/
theorem c6_canonical_roundtrip :
    ∀ m : ExecuteMsg, m.valid →
      ExecuteMsg.decode (ExecuteMsg.encode m) = some m ∧
      ∀ m2 : ExecuteMsg, m2 = m → ExecuteMsg.encode m2 = ExecuteMsg.encode m := by
  intro m hv
  refine ⟨?_, fun m2 h2 => by rw [h2]⟩
  rw [ExecuteMsg.decode, ExecuteMsg.encode, parseJson_render, Option.some_bind]
  cases m with
  | transfer r n =>
    simp only [ExecuteMsg.valid] at hv
    simp [ExecuteMsg.toJson, ExecuteMsg.fromJson, parseU128_natDecimal n hv]
  | burn n =>
    simp only [ExecuteMsg.valid] at hv
    simp [ExecuteMsg.toJson, ExecuteMsg.fromJson, parseU128_natDecimal n hv]

theorem c6_canonical_roundtrip_witness :
    ExecuteMsg.valid (ExecuteMsg.transfer "archway1recipient" 100) ∧
    ExecuteMsg.decode (ExecuteMsg.encode (ExecuteMsg.transfer "archway1recipient" 100))
      = some (ExecuteMsg.transfer "archway1recipient" 100) := by
  have hv : ExecuteMsg.valid (ExecuteMsg.transfer "archway1recipient" 100) := by
    simp [ExecuteMsg.valid]
  exact ⟨hv, (c6_canonical_roundtrip (ExecuteMsg.transfer "archway1recipient" 100) hv).1⟩

/-- C7: the deployment registry built by `CwMcp::new` holds exactly two
deployments — one Mainnet, one Testnet — each with a non-empty chain id and a
non-empty contract address, and `list_contract_deployments` returns their
serialization in a success result; the registry is an immutable pure value,
so every call yields the same two entries. -/
theorem c7_deployment_registry :
    CwMcp.new.contracts.length = 2 ∧
    CwMcp.new.contracts.map CwContract.network = [Network.Mainnet, Network.Testnet] ∧
    CwMcp.new.contracts.all
      (fun c => !c.chain_id.isEmpty && !c.contract_address.isEmpty) = true ∧
    list_contract_deployments CwMcp.new
      = Outcome.returns (Except.ok (CallToolResult.success
          [(Json.arr (contractsJson CwMcp.new.contracts)).render])) :=
  ⟨rfl, rfl, by decide, rfl⟩

/-- C8: the introspection and registry operations always return a success
result for every serializer behavior, and if serialization fails the returned
text degrades to the empty string (`unwrap_or("".to_string())`,
src/server.rs 53, 61, 117). -/
theorem c8_list_ops_never_error :
    ∀ (ser : Json → Option String) (s : CwMcp),
      listContractDeploymentsWith ser s
        = Outcome.returns (Except.ok (CallToolResult.success
            [(ser (Json.arr (contractsJson s.contracts))).getD ""])) ∧
      listQueryEntryPointsWith ser
        = Outcome.returns (Except.ok (CallToolResult.success
            [(ser querySchemaJson).getD ""])) ∧
      listTxEntryPointsWith ser
        = Outcome.returns (Except.ok (CallToolResult.success
            [(ser txSchemaJson).getD ""])) ∧
      (ser (Json.arr (contractsJson s.contracts)) = none →
        listContractDeploymentsWith ser s
          = Outcome.returns (Except.ok (CallToolResult.success [""]))) ∧
      (ser querySchemaJson = none →
        listQueryEntryPointsWith ser
          = Outcome.returns (Except.ok (CallToolResult.success [""]))) ∧
      (ser txSchemaJson = none →
        listTxEntryPointsWith ser
          = Outcome.returns (Except.ok (CallToolResult.success [""]))) := by
  intro ser s
  refine ⟨rfl, rfl, rfl, ?_, ?_, ?_⟩
  · intro h; simp [listContractDeploymentsWith, h]
  · intro h; simp [listQueryEntryPointsWith, h]
  · intro h; simp [listTxEntryPointsWith, h]

theorem c8_list_ops_never_error_witness :
    listContractDeploymentsWith (fun _ => none) CwMcp.new
      = Outcome.returns (Except.ok (CallToolResult.success [""])) ∧
    listQueryEntryPointsWith (fun _ => none)
      = Outcome.returns (Except.ok (CallToolResult.success [""])) ∧
    listTxEntryPointsWith (fun _ => none)
      = Outcome.returns (Except.ok (CallToolResult.success [""])) := by
  have h := c8_list_ops_never_error (fun _ => none) CwMcp.new
  exact ⟨h.2.2.2.1 rfl, h.2.2.2.2.1 rfl, h.2.2.2.2.2 rfl⟩

/-- C9: no tool operation ever returns the `Err` variant of
`Result<CallToolResult, Error>` — every terminating invocation returns `Ok`,
with error conditions conveyed only as an error-flavored `CallToolResult`
inside `Ok`. -/
theorem c9_no_host_error :
    ∀ (ser : Json → Option String) (encq : QueryMsg → Option String)
      (ence : ExecuteMsg → Option String) (s : CwMcp) (addr q e : String)
      (p d : Option String),
      (listContractDeploymentsWith ser s).noHostError ∧
      (listQueryEntryPointsWith ser).noHostError ∧
      (listTxEntryPointsWith ser).noHostError ∧
      (buildQueryMsgWith ser encq addr q).noHostError ∧
      (buildExecuteMsgWith ser ence addr e p d).noHostError := by
  intro ser encq ence s addr q e p d
  refine ⟨⟨_, rfl⟩, ⟨_, rfl⟩, ⟨_, rfl⟩, ?_, ?_⟩
  · cases hq : parseQueryMsg q with
    | none => simp [buildQueryMsgWith, hq, Outcome.noHostError]
    | some m =>
      cases hs : ser (queryRequestJson addr ((encq m).getD "")) with
      | none => simp [buildQueryMsgWith, hq, hs, Outcome.noHostError]
      | some s2 => simp [buildQueryMsgWith, hq, hs, Outcome.noHostError]
  · cases he : parseExecuteMsg e with
    | none => simp [buildExecuteMsgWith, he, Outcome.noHostError]
    | some m =>
      cases hs : ser (cosmosMsgJson addr ((ence m).getD "") (executeFunds p d)) with
      | none => simp [buildExecuteMsgWith, he, hs, Outcome.noHostError]
      | some s2 => simp [buildExecuteMsgWith, he, hs, Outcome.noHostError]

/-- C10: if binary-encoding the successfully parsed payload fails
(`to_json_binary(..)`), both builders silently substitute the default empty
binary (`unwrap_or_default()`, src/server.rs 97, 158) as the envelope's `msg`
field and still return a success result. -/
theorem c10_encoding_failure_default_binary :
    ∀ (encq : QueryMsg → Option String) (ence : ExecuteMsg → Option String)
      (addr q e : String) (p d : Option String) (mq : QueryMsg) (me : ExecuteMsg),
      (parseQueryMsg q = some mq → encq mq = none →
        buildQueryMsgWith serdeToString encq addr q
          = Outcome.returns (Except.ok (CallToolResult.success
              [(validatedQueryJson q ((queryRequestJson addr "").render)).render]))) ∧
      (parseExecuteMsg e = some me → ence me = none →
        buildExecuteMsgWith serdeToString ence addr e p d
          = Outcome.returns (Except.ok (CallToolResult.success
              [(validatedExecuteJson e
                  ((cosmosMsgJson addr "" (executeFunds p d)).render)).render]))) := by
  intro encq ence addr q e p d mq me
  constructor
  · intro hm henc
    simp [buildQueryMsgWith, hm, henc, serdeToString]
  · intro hm henc
    simp [buildExecuteMsgWith, hm, henc, serdeToString]

theorem c10_encoding_failure_default_binary_witness :
    parseQueryMsg (QueryMsg.tokenInfo.toJson.render) = some QueryMsg.tokenInfo ∧
    parseExecuteMsg ((ExecuteMsg.burn 5).toJson.render) = some (ExecuteMsg.burn 5) ∧
    buildQueryMsgWith serdeToString (fun _ => none) "archway1contract"
        (QueryMsg.tokenInfo.toJson.render)
      = Outcome.returns (Except.ok (CallToolResult.success
          [(validatedQueryJson (QueryMsg.tokenInfo.toJson.render)
              ((queryRequestJson "archway1contract" "").render)).render])) ∧
    buildExecuteMsgWith serdeToString (fun _ => none) "archway1contract"
        ((ExecuteMsg.burn 5).toJson.render) none none
      = Outcome.returns (Except.ok (CallToolResult.success
          [(validatedExecuteJson ((ExecuteMsg.burn 5).toJson.render)
              ((cosmosMsgJson "archway1contract" "" (executeFunds none none)).render)).render])) := by
  have h := c10_encoding_failure_default_binary (fun _ => none) (fun _ => none)
    "archway1contract" (QueryMsg.tokenInfo.toJson.render)
    ((ExecuteMsg.burn 5).toJson.render) none none QueryMsg.tokenInfo (ExecuteMsg.burn 5)
  exact ⟨rfl, rfl, h.1 rfl rfl, h.2 rfl rfl⟩
